import Mathlib

/-!
Verification development for the TokenWise wallet-monitoring backend
(backend/src/services/solanaService.ts).

The TypeScript source is shallowly embedded: every definition below mirrors a
function or class of the source.  JavaScript numbers that hold token amounts
are modelled as rationals (Rat), millisecond clock readings as naturals,
fallible asynchronous operations as Except-valued functions indexed by the
attempt number, and the implicit event trace (rate-limiter acquisitions and
upstream calls) as an explicit list of events.
-/

namespace TokenWise

/-- One entry of preTokenBalances / postTokenBalances of a parsed
transaction's meta: owner address, token mint, and the ui amount. -/
structure TokenBalance where
  owner : String
  mint : String
  uiAmount : Rat
  deriving DecidableEq

/-- The meta field of a parsed transaction.  In the source the pre/post token
balance lists may be absent (`|| []` supplies the default), and fee is in
lamports. -/
structure TxMeta where
  preTokenBalances : Option (List TokenBalance)
  postTokenBalances : Option (List TokenBalance)
  fee : Nat
  deriving DecidableEq

/-- The transaction field of a parsed transaction: the message's account keys
(already rendered to strings, as analyzeTransaction does via
`key.pubkey.toString()`) and the signature list. -/
structure TxInner where
  accountKeys : List String
  signatures : List String
  deriving DecidableEq

/-- ParsedTransactionWithMeta as consumed by analyzeTransaction: meta and
transaction may each be null, blockTime is a unix time in seconds. -/
structure ParsedTx where
  meta : Option TxMeta
  transaction : Option TxInner
  blockTime : Int
  deriving DecidableEq

/-- Direction of a classified transaction. -/
inductive TxType where
  | buy
  | sell
  deriving DecidableEq

/-- Protocol tag of a classified transaction. -/
inductive Protocol where
  | jupiter
  | raydium
  | orca
  | unknown
  deriving DecidableEq

/-- The Transaction record of backend/src/types/index.ts (a
ClassifiedTransaction): timestamp is in milliseconds. -/
structure Transaction where
  signature : String
  timestamp : Int
  walletAddress : String
  type : TxType
  amount : Rat
  protocol : Protocol
  priceImpact : Rat
  fee : Rat
  tokenPrice : Rat
  deriving DecidableEq

/-- The Wallet record of backend/src/types/index.ts; Date fields are
millisecond clock readings. -/
structure Wallet where
  address : String
  tokenBalance : Rat
  solBalance : Rat
  firstSeen : Nat
  lastActivity : Nat
  transactionCount : Nat
  totalVolume : Rat
  deriving DecidableEq

/-- The inner findBalance closure of calculateTokenBalanceChange: the first
balance entry whose owner is the wallet address and whose mint is the
monitored mint, defaulting to 0 when no entry matches. -/
def findBalance (tokenMint : String) (balances : List TokenBalance)
    (address : String) : Rat :=
  match balances.find? (fun b => b.owner == address && b.mint == tokenMint) with
  | some b => b.uiAmount
  | none => 0

/-- SolanaService.calculateTokenBalanceChange: post-state balance minus
pre-state balance for the wallet, each side 0 when no matching entry. -/
def calculateTokenBalanceChange (tokenMint : String)
    (preBalances postBalances : List TokenBalance)
    (walletAddress : String) : Rat :=
  findBalance tokenMint postBalances walletAddress -
    findBalance tokenMint preBalances walletAddress

/-- The jupiter program identifiers of detectProtocol's table. -/
def jupiterIds : List String :=
  ["JUP4Fb2cqiRUcaTHdrPC8h2gNsA2ETXiPDD33WcGuJB",
   "JUP6LkbZbjS1jKKwapdHNy74zcZ3tLUZoi5QNyVTaV4"]

/-- The raydium program identifiers of detectProtocol's table. -/
def raydiumIds : List String :=
  ["675kPX9MHTjS2zt1qfr1NYHuzeLXfQM9H24wFSUt1Mp8",
   "5Q544fKrFoe6tsEbD7S8EmxGTJYAKtTVhAW5Q5pge4j1"]

/-- The orca program identifiers of detectProtocol's table. -/
def orcaIds : List String :=
  ["9W959DqEETiGZocYWCQPaJ6sBmUzgfxXfqGeTEdp3aQP",
   "DjVE6JNiYqPL2QXyCUUh8rNjHrbz9hXHNYt99MQ59qw1"]

/-- The fixed protocol table of detectProtocol, in the source's insertion
order (Object.entries iterates string keys in insertion order). -/
def protocolTable : List (Protocol × List String) :=
  [(Protocol.jupiter, jupiterIds),
   (Protocol.raydium, raydiumIds),
   (Protocol.orca, orcaIds)]

/-- SolanaService.detectProtocol: first protocol of the table whose
identifier set intersects the account keys, else unknown. -/
def detectProtocol (accountKeys : List String) : Protocol :=
  match protocolTable.find?
      (fun p => accountKeys.any (fun key => p.2.contains key)) with
  | some p => p.1
  | none => Protocol.unknown

/-- SolanaService.analyzeTransaction: null when meta or transaction is
absent or when the token balance delta is zero, otherwise the classified
transaction with direction from the delta's sign and amount its absolute
value.  The source's try/catch is not modelled (everything reachable here is
total). -/
def analyzeTransaction (tokenMint : String) (tx : ParsedTx)
    (walletAddress : String) : Option Transaction :=
  match tx.meta, tx.transaction with
  | some meta, some inner =>
    let preBalances := meta.preTokenBalances.getD []
    let postBalances := meta.postTokenBalances.getD []
    let protocol := detectProtocol inner.accountKeys
    let tokenBalanceChange :=
      calculateTokenBalanceChange tokenMint preBalances postBalances
        walletAddress
    if tokenBalanceChange = 0 then none
    else
      some
        { signature := inner.signatures.headD ""
          timestamp := tx.blockTime * 1000
          walletAddress := walletAddress
          type := if tokenBalanceChange > 0 then TxType.buy else TxType.sell
          amount := |tokenBalanceChange|
          protocol := protocol
          priceImpact := 0
          fee := (meta.fee : Rat) / 1000000000
          tokenPrice := 0 }
  | _, _ => none

/-- Substring test on character lists: does the first list occur
contiguously inside the second?  Models JavaScript's String.includes. -/
def listHasSub (pat : List Char) : List Char → Bool
  | [] => pat.isEmpty
  | c :: rest => pat.isPrefixOf (c :: rest) || listHasSub pat rest

/-- String.includes of the source, via the character lists. -/
def strIncludes (s pat : String) : Bool :=
  listHasSub pat.toList s.toList

/-- The rate-limit test of RetryHelper.withRetry: the error message contains
"429" or "Too Many Requests". -/
def isRateLimitMsg (msg : String) : Bool :=
  strIncludes msg "429" || strIncludes msg "Too Many Requests"

/-- An event of the engine's upstream-facing trace: a rate-limiter
acquisition (rateLimiter.waitForAvailability) or an upstream call issued by
attempt number `attempt` of a withRetry loop. -/
inductive Event where
  | acquire
  | upstreamCall (attempt : Nat)
  deriving DecidableEq

/-- True when the event is a rate-limiter acquisition. -/
def Event.isAcquire : Event → Bool
  | Event.acquire => true
  | Event.upstreamCall _ => false

namespace RetryHelper

/-- The loop body of RetryHelper.withRetry.  `attempt` is the current
attempt index and `remaining` the number of attempts still allowed after
this one (so `remaining = 0` corresponds to `attempt === maxRetries`, where
the source throws whatever error occurred).  The wrapped asynchronous
operation is modelled as a function from the attempt index to that
attempt's outcome; the sleep between attempts has no observable effect
beyond ordering and is not modelled.  Returns the emitted upstream-call
trace together with the result. -/
def withRetryGo (op : Nat → Except String α) (attempt : Nat) :
    Nat → List Event × Except String α
  | 0 => ([Event.upstreamCall attempt], op attempt)
  | remaining + 1 =>
    match op attempt with
    | Except.ok v => ([Event.upstreamCall attempt], Except.ok v)
    | Except.error e =>
      if isRateLimitMsg e then
        let rest := withRetryGo op (attempt + 1) remaining
        (Event.upstreamCall attempt :: rest.1, rest.2)
      else
        ([Event.upstreamCall attempt], Except.error e)

/-- RetryHelper.withRetry, result component: run the operation starting at
attempt 0 with up to maxRetries additional attempts. -/
def withRetry (op : Nat → Except String α) (maxRetries : Nat) :
    Except String α :=
  (withRetryGo op 0 maxRetries).2

/-- RetryHelper.withRetry, trace component: the upstream calls it issues. -/
def withRetryTrace (op : Nat → Except String α) (maxRetries : Nat) :
    List Event :=
  (withRetryGo op 0 maxRetries).1

end RetryHelper

/-- The in-process state of the RateLimiter class: recorded admission
timestamps (milliseconds) and the configured window parameters. -/
structure RateLimiter where
  requests : List Nat
  maxRequests : Nat
  timeWindow : Nat
  deriving DecidableEq

namespace RateLimiter

/-- One evaluation of RateLimiter.waitForAvailability at clock reading
`now`: prune timestamps that fell out of the window; if the window is at
capacity and the computed wait is positive the caller suspends and
re-invokes later (modelled as `none` — no admission happens at this
instant); otherwise the admission timestamp is pushed and the caller
proceeds.  The check-and-push runs without an intervening await in the
source, so it is atomic with respect to other callers. -/
def waitForAvailability (rl : RateLimiter) (now : Nat) :
    Option RateLimiter :=
  let filtered :=
    rl.requests.filter (fun timestamp => decide (now - timestamp < rl.timeWindow))
  if filtered.length ≥ rl.maxRequests then
    let oldestRequest := filtered.headD 0
    let waitTime := rl.timeWindow - (now - oldestRequest)
    if waitTime > 0 then
      none
    else
      some { rl with requests := filtered ++ [now] }
  else
    some { rl with requests := filtered ++ [now] }

end RateLimiter

/-- The rate limiter as constructed by SolanaService's constructor:
`new RateLimiter(8, 1000)`. -/
def mkSolanaRateLimiter : RateLimiter :=
  { requests := [], maxRequests := 8, timeWindow := 1000 }

/-- SolanaService.processTransaction, storage effect: the list of
classified transactions handed to dbManager.insertTransaction (empty or a
singleton).  `fetchOp` models the retried getParsedTransaction call, per
attempt.  Errors (including retry exhaustion) are caught and logged, a null
transaction is skipped, and a null analysis stores nothing. -/
def processTransaction (tokenMint : String)
    (fetchOp : Nat → Except String (Option ParsedTx))
    (walletAddress : String) : List Transaction :=
  match RetryHelper.withRetry fetchOp 3 with
  | Except.error _ => []
  | Except.ok none => []
  | Except.ok (some transaction) =>
    match analyzeTransaction tokenMint transaction walletAddress with
    | some analysis => [analysis]
    | none => []

/-- SolanaService.processTransaction, event trace: one rate-limiter
acquisition, then the withRetry attempts of the getParsedTransaction
fetch.  The analysis and storage steps issue no upstream calls. -/
def processTransactionTrace
    (fetchOp : Nat → Except String (Option ParsedTx)) : List Event :=
  Event.acquire :: RetryHelper.withRetryTrace fetchOp 3

/-- SolanaService.handleAccountChange, event trace: one rate-limiter
acquisition, the withRetry attempts of the getSignaturesForAddress fetch,
then — when that fetch succeeded — one processTransaction trace per
returned signature.  A failure of the signature fetch is caught and ends
the handler. -/
def handleAccountChangeTrace (sigOp : Nat → Except String (List String))
    (txOps : String → Nat → Except String (Option ParsedTx)) : List Event :=
  Event.acquire :: RetryHelper.withRetryTrace sigOp 3 ++
    (match RetryHelper.withRetry sigOp 3 with
     | Except.error _ => []
     | Except.ok signatures =>
       (signatures.map (fun sig => processTransactionTrace (txOps sig))).flatten)

/-- Checks that every retried upstream call (attempt index ≥ 1) of a trace
has a rate-limiter acquisition somewhere after the preceding upstream call.
The boolean accumulator records whether an acquisition has happened since
the last upstream call. -/
def retriesGatedAux : List Event → Bool → Bool
  | [], _ => true
  | Event.acquire :: rest, _ => retriesGatedAux rest true
  | Event.upstreamCall 0 :: rest, _ => retriesGatedAux rest false
  | Event.upstreamCall (_ + 1) :: rest, acquired =>
    acquired && retriesGatedAux rest false

/-- A trace gates its retries when each re-issued upstream call is preceded
by an admission acquisition that happened after the previous call. -/
def retriesGated (trace : List Event) : Bool :=
  retriesGatedAux trace true

/-- The holder-cache state of SolanaService: topHoldersCache and
lastTopHolderFetch. -/
structure HolderCacheState where
  topHoldersCache : List Wallet
  lastTopHolderFetch : Nat
  deriving DecidableEq

/-- One entry of the upstream BalanceUpdates response consumed by
getTopTokenHolders: the account address and its holding (parseFloat of the
reported PostBalance, 0 when absent). -/
structure FetchEntry where
  address : String
  holding : Rat
  deriving DecidableEq

/-- The per-entry conversion of getTopTokenHolders: a Wallet record with
zeroed counters and both Date fields stamped with the current time. -/
def toWallet (now : Nat) (entry : FetchEntry) : Wallet :=
  { address := entry.address
    tokenBalance := entry.holding
    solBalance := 0
    firstSeen := now
    lastActivity := now
    transactionCount := 0
    totalVolume := 0 }

/-- The observable outcome of one getTopTokenHolders call: the returned
list, the holder-cache state afterwards, whether an upstream fetch was
issued, and the wallets persisted via dbManager.insertWallet. -/
structure HolderFetchResult where
  result : List Wallet
  state : HolderCacheState
  didFetch : Bool
  persisted : List Wallet
  deriving DecidableEq

/-- SolanaService.getTopTokenHolders: serve `slice(0, limit)` of the cache
when it is non-empty and younger than 30000 ms, otherwise issue the
upstream query (its decoded entry list is the `upstream` argument), convert
each entry to a Wallet, persist each, replace the cache wholesale, stamp
the refresh time, and return `slice(0, 60)` of the fetched wallets. -/
def getTopTokenHolders (st : HolderCacheState) (now limit : Nat)
    (upstream : List FetchEntry) : HolderFetchResult :=
  if st.topHoldersCache.length ≠ 0 ∧ now - st.lastTopHolderFetch < 30000 then
    { result := st.topHoldersCache.take limit
      state := st
      didFetch := false
      persisted := [] }
  else
    let wallets := upstream.map (toWallet now)
    { result := wallets.take 60
      state := { topHoldersCache := wallets, lastTopHolderFetch := now }
      didFetch := true
      persisted := wallets }

/-- Assoc-list update with JavaScript Map.set semantics: replace the value
in place when the key is present, append otherwise. -/
def mapSet : List (String × Nat) → String → Nat → List (String × Nat)
  | [], key, value => [(key, value)]
  | (k, v) :: rest, key, value =>
    if k == key then (key, value) :: rest
    else (k, v) :: mapSet rest key value

/-- Assoc-list lookup with JavaScript Map.get semantics. -/
def mapGet : List (String × Nat) → String → Option Nat
  | [], _ => none
  | (k, v) :: rest, key => if k == key then some v else mapGet rest key

/-- The subscription-related state of SolanaService: the tracked
subscriptions map (address to subscription id), the set of subscription
handles actually live on the RPC connections (an onAccountChange listener
stays live until removeAccountChangeListener is called on its id), and the
next id the connection will hand out. -/
structure SubState where
  subscriptions : List (String × Nat)
  liveHandles : List (String × Nat)
  nextId : Nat
  deriving DecidableEq

/-- The per-address body of SolanaService.subscribeToWalletTransactions:
acquire admission (no state effect modelled here), open a new
onAccountChange subscription — which makes a fresh handle live — and track
it with Map.set, overwriting any previously tracked entry. -/
def subscribeOne (st : SubState) (address : String) : SubState :=
  { subscriptions := mapSet st.subscriptions address st.nextId
    liveHandles := st.liveHandles ++ [(address, st.nextId)]
    nextId := st.nextId + 1 }

/-- SolanaService.subscribeToWalletTransactions over the success path: the
batching and inter-batch delays reorder nothing, so the state effect is the
per-address body folded over the addresses. -/
def subscribeToWalletTransactions (st : SubState)
    (walletAddresses : List String) : SubState :=
  walletAddresses.foldl subscribeOne st

/-- The per-signature loop of SolanaService.getWalletTransactionHistory:
for each signature, acquire admission (no observable state here), fetch the
parsed transaction through withRetry, skip a null transaction, analyze a
present one and push a non-null analysis.  Any fetch error aborts the whole
loop (it is caught by the enclosing try). -/
def historyLoop (tokenMint walletAddress : String)
    (txOps : String → Nat → Except String (Option ParsedTx)) :
    List String → Except String (List Transaction)
  | [] => Except.ok []
  | sig :: rest =>
    match RetryHelper.withRetry (txOps sig) 3 with
    | Except.error e => Except.error e
    | Except.ok maybeTx =>
      let contrib : List Transaction :=
        match maybeTx with
        | some transaction =>
          (analyzeTransaction tokenMint transaction walletAddress).toList
        | none => []
      match historyLoop tokenMint walletAddress txOps rest with
      | Except.error e => Except.error e
      | Except.ok tail => Except.ok (contrib ++ tail)

/-- The body of SolanaService.getWalletTransactionHistory's try block:
fetch up to `limit` signatures through withRetry (the limit is applied by
the upstream call and is implicit in `sigOp`'s outcome), then run the
per-signature loop. -/
def historyBody (tokenMint walletAddress : String)
    (sigOp : Nat → Except String (List String))
    (txOps : String → Nat → Except String (Option ParsedTx)) :
    Except String (List Transaction) :=
  match RetryHelper.withRetry sigOp 3 with
  | Except.error e => Except.error e
  | Except.ok signatures => historyLoop tokenMint walletAddress txOps signatures

/-- SolanaService.getWalletTransactionHistory: the try body's result on
success, the empty list when anything in the body threw (the catch clause
logs and returns []). -/
def getWalletTransactionHistory (tokenMint walletAddress : String)
    (sigOp : Nat → Except String (List String))
    (txOps : String → Nat → Except String (Option ParsedTx)) :
    List Transaction :=
  match historyBody tokenMint walletAddress sigOp txOps with
  | Except.ok transactions => transactions
  | Except.error _ => []

/-! ## Claims -/

/-- C1: for every parsed transaction (with meta and transaction present) and
monitored wallet whose computed token-balance delta is non-zero,
analyzeTransaction produces a classified transaction whose direction is buy
iff the delta is positive (sell otherwise) and whose amount is the absolute
value of the delta. -/
theorem c1_nonzero_delta_direction_amount (tokenMint walletAddress : String)
    (tx : ParsedTx) (meta : TxMeta) (inner : TxInner)
    (hm : tx.meta = some meta) (ht : tx.transaction = some inner)
    (hnz : calculateTokenBalanceChange tokenMint (meta.preTokenBalances.getD [])
      (meta.postTokenBalances.getD []) walletAddress ≠ 0) :
    ∃ t : Transaction,
      analyzeTransaction tokenMint tx walletAddress = some t ∧
      (t.type = TxType.buy ↔
        0 < calculateTokenBalanceChange tokenMint (meta.preTokenBalances.getD [])
          (meta.postTokenBalances.getD []) walletAddress) ∧
      t.amount = |calculateTokenBalanceChange tokenMint (meta.preTokenBalances.getD [])
          (meta.postTokenBalances.getD []) walletAddress| := by
  obtain ⟨txMeta, txInner, blockTime⟩ := tx
  cases hm
  cases ht
  unfold analyzeTransaction
  simp only [if_neg hnz]
  refine ⟨_, rfl, ?_, rfl⟩
  by_cases hpos :
      0 < calculateTokenBalanceChange tokenMint (meta.preTokenBalances.getD [])
        (meta.postTokenBalances.getD []) walletAddress
  · simp [if_pos hpos, hpos]
  · simp only [if_neg hpos]
    constructor
    · intro hcontr
      exact absurd hcontr (by simp)
    · intro hcontr
      exact absurd hcontr hpos

/-- C1 witness: preBalance 100 and postBalance 140 for the monitored mint
yield a buy with amount 40. -/
theorem c1_nonzero_delta_direction_amount_witness :
    ∃ t : Transaction,
      analyzeTransaction "M"
        { meta := some
            { preTokenBalances := some [{ owner := "W", mint := "M", uiAmount := 100 }]
              postTokenBalances := some [{ owner := "W", mint := "M", uiAmount := 140 }]
              fee := 5000 }
          transaction := some { accountKeys := [], signatures := ["sig1"] }
          blockTime := 7 } "W" = some t ∧
      t.type = TxType.buy ∧ t.amount = 40 := by
  have hdelta : calculateTokenBalanceChange "M"
      [{ owner := "W", mint := "M", uiAmount := 100 }]
      [{ owner := "W", mint := "M", uiAmount := 140 }] "W" = 40 := by
    norm_num [calculateTokenBalanceChange, findBalance, List.find?]
  obtain ⟨t, hsome, hdir, hamt⟩ :=
    c1_nonzero_delta_direction_amount "M" "W"
      { meta := some
          { preTokenBalances := some [{ owner := "W", mint := "M", uiAmount := 100 }]
            postTokenBalances := some [{ owner := "W", mint := "M", uiAmount := 140 }]
            fee := 5000 }
        transaction := some { accountKeys := [], signatures := ["sig1"] }
        blockTime := 7 }
      { preTokenBalances := some [{ owner := "W", mint := "M", uiAmount := 100 }]
        postTokenBalances := some [{ owner := "W", mint := "M", uiAmount := 140 }]
        fee := 5000 }
      { accountKeys := [], signatures := ["sig1"] }
      rfl rfl (by simp only [Option.getD_some]; rw [hdelta]; norm_num)
  refine ⟨t, hsome, ?_, ?_⟩
  · apply hdir.mpr
    simp only [Option.getD_some] at hdir ⊢
    rw [hdelta]
    norm_num
  · simp only [Option.getD_some] at hamt
    rw [hamt, hdelta]
    norm_num

/-- C2: when the computed token-balance delta for the monitored wallet is
zero (in particular when matching entries are missing on either side and
treated as zero), analyzeTransaction returns null and processTransaction
hands nothing to storage. -/
theorem c2_zero_delta_no_event (tokenMint walletAddress : String)
    (tx : ParsedTx)
    (h : ∀ meta, tx.meta = some meta →
      calculateTokenBalanceChange tokenMint (meta.preTokenBalances.getD [])
        (meta.postTokenBalances.getD []) walletAddress = 0) :
    analyzeTransaction tokenMint tx walletAddress = none ∧
      ∀ fetchOp : Nat → Except String (Option ParsedTx),
        RetryHelper.withRetry fetchOp 3 = Except.ok (some tx) →
        processTransaction tokenMint fetchOp walletAddress = [] := by
  obtain ⟨txMeta, txInner, blockTime⟩ := tx
  have hana : analyzeTransaction tokenMint ⟨txMeta, txInner, blockTime⟩
      walletAddress = none := by
    cases txMeta with
    | none => cases txInner <;> rfl
    | some meta =>
      cases txInner with
      | none => rfl
      | some inner =>
        have h0 := h meta rfl
        unfold analyzeTransaction
        simp only [if_pos h0]
  refine ⟨hana, ?_⟩
  intro fetchOp hfetch
  unfold processTransaction
  rw [hfetch]
  simp only [hana]

/-- C2 witness: no pre- or post-balance entry matches the wallet (a foreign
owner's entry is present), so the delta is zero on both sides and neither an
analysis nor a stored record is produced. -/
theorem c2_zero_delta_no_event_witness :
    analyzeTransaction "M"
      { meta := some
          { preTokenBalances := some [{ owner := "X", mint := "M", uiAmount := 7 }]
            postTokenBalances := none
            fee := 5000 }
        transaction := some { accountKeys := [], signatures := ["sig2"] }
        blockTime := 9 } "W" = none ∧
    processTransaction "M"
      (fun _ => Except.ok (some
        { meta := some
            { preTokenBalances := some [{ owner := "X", mint := "M", uiAmount := 7 }]
              postTokenBalances := none
              fee := 5000 }
          transaction := some { accountKeys := [], signatures := ["sig2"] }
          blockTime := 9 })) "W" = [] := by
  have h := c2_zero_delta_no_event "M" "W"
    { meta := some
        { preTokenBalances := some [{ owner := "X", mint := "M", uiAmount := 7 }]
          postTokenBalances := none
          fee := 5000 }
      transaction := some { accountKeys := [], signatures := ["sig2"] }
      blockTime := 9 }
    (by
      intro meta hmeta
      cases hmeta
      norm_num [calculateTokenBalanceChange, findBalance, List.find?]
      rw [show ("X" == "W") = false from by decide])
  exact ⟨h.1, h.2 _ rfl⟩

/-- C3: detectProtocol is a deterministic total function into the four
protocol tags; when the account keys intersect several protocols'
identifier sets the first of the table's insertion order (jupiter, raydium,
orca) wins, and when none intersects the result is unknown. -/
theorem c3_detect_protocol_table_order (accountKeys : List String) :
    (accountKeys.any (fun key => jupiterIds.contains key) = true →
      detectProtocol accountKeys = Protocol.jupiter) ∧
    (accountKeys.any (fun key => jupiterIds.contains key) = false →
      accountKeys.any (fun key => raydiumIds.contains key) = true →
      detectProtocol accountKeys = Protocol.raydium) ∧
    (accountKeys.any (fun key => jupiterIds.contains key) = false →
      accountKeys.any (fun key => raydiumIds.contains key) = false →
      accountKeys.any (fun key => orcaIds.contains key) = true →
      detectProtocol accountKeys = Protocol.orca) ∧
    (accountKeys.any (fun key => jupiterIds.contains key) = false →
      accountKeys.any (fun key => raydiumIds.contains key) = false →
      accountKeys.any (fun key => orcaIds.contains key) = false →
      detectProtocol accountKeys = Protocol.unknown) := by
  refine ⟨?_, ?_, ?_, ?_⟩
  · intro h1
    simp only [detectProtocol, protocolTable, List.find?, h1]
  · intro h1 h2
    simp only [detectProtocol, protocolTable, List.find?, h1, h2]
  · intro h1 h2 h3
    simp only [detectProtocol, protocolTable, List.find?, h1, h2, h3]
  · intro h1 h2 h3
    simp only [detectProtocol, protocolTable, List.find?, h1, h2, h3]

/-- C3 witness: a key set containing both a jupiter and a raydium program
id classifies as jupiter (first in table order), and the empty key set
classifies as unknown. -/
theorem c3_detect_protocol_table_order_witness :
    detectProtocol ["JUP4Fb2cqiRUcaTHdrPC8h2gNsA2ETXiPDD33WcGuJB",
      "675kPX9MHTjS2zt1qfr1NYHuzeLXfQM9H24wFSUt1Mp8"] = Protocol.jupiter ∧
    detectProtocol [] = Protocol.unknown := by
  constructor
  · exact (c3_detect_protocol_table_order
      ["JUP4Fb2cqiRUcaTHdrPC8h2gNsA2ETXiPDD33WcGuJB",
       "675kPX9MHTjS2zt1qfr1NYHuzeLXfQM9H24wFSUt1Mp8"]).1 (by decide)
  · exact (c3_detect_protocol_table_order []).2.2.2 (by decide) (by decide)
      (by decide)

/-- Helper: when the first attempt succeeds, withRetry returns its value. -/
theorem withRetry_ok_first (op : Nat → Except String α) (m : Nat) (v : α)
    (h0 : op 0 = Except.ok v) :
    RetryHelper.withRetry op m = Except.ok v := by
  cases m with
  | zero => simp [RetryHelper.withRetry, RetryHelper.withRetryGo, h0]
  | succ m => simp [RetryHelper.withRetry, RetryHelper.withRetryGo, h0]

/-- Helper: a first-attempt error without a rate-limit marker is returned
at once, whatever later attempts would do. -/
theorem withRetry_error_stops (op : Nat → Except String α) (m : Nat)
    (e : String) (h0 : op 0 = Except.error e)
    (hnr : isRateLimitMsg e = false) :
    RetryHelper.withRetry op m = Except.error e := by
  cases m with
  | zero => simp [RetryHelper.withRetry, RetryHelper.withRetryGo, h0]
  | succ m => simp [RetryHelper.withRetry, RetryHelper.withRetryGo, h0, hnr]

/-- Helper: when every attempt fails with a rate-limited error, the loop
runs all r + 1 attempts and returns the last attempt's error. -/
theorem withRetryGo_all_rate_limited (op : Nat → Except String α)
    (f : Nat → String) :
    ∀ (r a : Nat),
      (∀ i, i ≤ r → op (a + i) = Except.error (f (a + i)) ∧
        isRateLimitMsg (f (a + i)) = true) →
      (RetryHelper.withRetryGo op a r).2 = Except.error (f (a + r)) ∧
      (RetryHelper.withRetryGo op a r).1.length = r + 1 := by
  intro r
  induction r with
  | zero =>
    intro a h
    have h0 := h 0 (Nat.le_refl 0)
    rw [Nat.add_zero] at h0
    simp [RetryHelper.withRetryGo, h0.1]
  | succ r ih =>
    intro a h
    have h0 := h 0 (Nat.zero_le _)
    rw [Nat.add_zero] at h0
    have hrec := ih (a + 1) (fun i hi => by
      have hstep := h (i + 1) (Nat.succ_le_succ hi)
      have heq : a + (i + 1) = a + 1 + i := by omega
      rwa [heq] at hstep)
    have heq : a + 1 + r = a + (r + 1) := by omega
    rw [heq] at hrec
    simp [RetryHelper.withRetryGo, h0.1, h0.2, hrec.1, hrec.2]

/-- Helper: when the first k attempts fail rate-limited and attempt k
(within budget) succeeds, the loop returns the success. -/
theorem withRetryGo_ok_after_rate_limited (op : Nat → Except String α)
    (v : α) :
    ∀ (k r a : Nat), k ≤ r →
      (∀ i, i < k → ∃ e, op (a + i) = Except.error e ∧
        isRateLimitMsg e = true) →
      op (a + k) = Except.ok v →
      (RetryHelper.withRetryGo op a r).2 = Except.ok v := by
  intro k
  induction k with
  | zero =>
    intro r a _ _ hok
    rw [Nat.add_zero] at hok
    cases r with
    | zero => simpa [RetryHelper.withRetryGo] using hok
    | succ r => simp [RetryHelper.withRetryGo, hok]
  | succ k ih =>
    intro r a hkr hfail hok
    obtain ⟨e, he, hrl⟩ := hfail 0 (Nat.succ_pos k)
    rw [Nat.add_zero] at he
    cases r with
    | zero => exact absurd hkr (by omega)
    | succ r =>
      have hok' : op (a + 1 + k) = Except.ok v := by
        have heq : a + (k + 1) = a + 1 + k := by omega
        rwa [heq] at hok
      have hfail' : ∀ i, i < k → ∃ e', op (a + 1 + i) = Except.error e' ∧
          isRateLimitMsg e' = true := by
        intro i hi
        obtain ⟨e', he', hrl'⟩ := hfail (i + 1) (Nat.succ_lt_succ hi)
        have heq : a + (i + 1) = a + 1 + i := by omega
        exact ⟨e', by rwa [heq] at he', hrl'⟩
      have := ih r (a + 1) (Nat.le_of_succ_le_succ hkr) hfail' hok'
      simp [RetryHelper.withRetryGo, he, hrl, this]

/-- C4: withRetry returns the operation's result on success; an error
without a rate-limit marker (message containing "429" or
"Too Many Requests") propagates from the first failing attempt with zero
retries; when every attempt is rate-limited the loop makes exactly
maxRetries + 1 attempts and raises the last error; and a success on
attempt k ≤ maxRetries after rate-limited failures is returned. -/
theorem c4_withRetry_rate_limit_policy (op : Nat → Except String α)
    (m : Nat) :
    (∀ v, op 0 = Except.ok v → RetryHelper.withRetry op m = Except.ok v) ∧
    (∀ e, op 0 = Except.error e → isRateLimitMsg e = false →
      RetryHelper.withRetry op m = Except.error e) ∧
    (∀ f : Nat → String,
      (∀ i, i ≤ m → op i = Except.error (f i) ∧
        isRateLimitMsg (f i) = true) →
      RetryHelper.withRetry op m = Except.error (f m) ∧
      (RetryHelper.withRetryTrace op m).length = m + 1) ∧
    (∀ v k, k ≤ m →
      (∀ i, i < k → ∃ e, op i = Except.error e ∧
        isRateLimitMsg e = true) →
      op k = Except.ok v → RetryHelper.withRetry op m = Except.ok v) := by
  refine ⟨?_, ?_, ?_, ?_⟩
  · intro v h0
    exact withRetry_ok_first op m v h0
  · intro e h0 hnr
    exact withRetry_error_stops op m e h0 hnr
  · intro f h
    have := withRetryGo_all_rate_limited op f m 0
      (fun i hi => by simpa using h i hi)
    simpa [RetryHelper.withRetry, RetryHelper.withRetryTrace] using this
  · intro v k hkm hfail hok
    exact withRetryGo_ok_after_rate_limited op v k m 0 hkm
      (fun i hi => by simpa using hfail i hi) (by simpa using hok)

/-- C4 witness: two rate-limited failures followed by a success within the
retry budget yield the success; an operation whose error carries no
rate-limit marker propagates that error immediately. -/
theorem c4_withRetry_rate_limit_policy_witness :
    RetryHelper.withRetry
      (fun i => if i < 2 then Except.error "429" else Except.ok 7) 3 =
      Except.ok 7 ∧
    RetryHelper.withRetry
      (fun _ => (Except.error "boom" : Except String Nat)) 3 =
      Except.error "boom" := by
  constructor
  · exact (c4_withRetry_rate_limit_policy
      (fun i => if i < 2 then Except.error "429" else Except.ok 7) 3).2.2.2
      7 2 (by decide)
      (fun i hi => ⟨"429", by simp [hi], by decide⟩)
      rfl
  · exact (c4_withRetry_rate_limit_policy
      (fun _ => (Except.error "boom" : Except String Nat)) 3).2.1
      "boom" rfl (by decide)

/-- C5: whenever waitForAvailability of the constructed limiter
(maxRequests 8, timeWindow 1000) completes — from any state, so under any
interleaving of concurrent callers, each of whose check-and-record step is
atomic — the recorded request list holds at most 8 timestamps, and in
particular at most 8 of the recorded admission timestamps lie within the
last 1000 milliseconds. -/
theorem c5_rate_limiter_window_bound (rl : RateLimiter) (now : Nat)
    (rl' : RateLimiter) (hmax : rl.maxRequests = 8)
    (hwin : rl.timeWindow = 1000)
    (h : RateLimiter.waitForAvailability rl now = some rl') :
    rl'.requests.length ≤ 8 ∧
    (rl'.requests.filter
      (fun timestamp => decide (now - timestamp < 1000))).length ≤ 8 := by
  simp only [RateLimiter.waitForAvailability, hmax, hwin] at h
  generalize hF :
    List.filter (fun timestamp => decide (now - timestamp < 1000))
      rl.requests = F at h
  by_cases hlen : F.length ≥ 8
  · exfalso
    rw [if_pos hlen] at h
    have hne : F ≠ [] := by
      intro hnil
      rw [hnil] at hlen
      simp at hlen
    have hmem : F.headD 0 ∈ F := by
      cases F with
      | nil => exact absurd rfl hne
      | cons x xs => simp
    rw [← hF] at hmem
    have hdec := (List.mem_filter.mp hmem).2
    rw [hF] at hdec
    have hlt : now - F.headD 0 < 1000 := of_decide_eq_true hdec
    have hwt : 0 < 1000 - (now - F.headD 0) := Nat.sub_pos_of_lt hlt
    rw [if_pos hwt] at h
    exact Option.noConfusion h
  · rw [if_neg hlen] at h
    have hreq : rl'.requests = F ++ [now] := by
      rw [← Option.some.inj h]
    push_neg at hlen
    refine ⟨?_, ?_⟩
    · rw [hreq]
      simp only [List.length_append, List.length_singleton]
      omega
    · calc (rl'.requests.filter
          (fun timestamp => decide (now - timestamp < 1000))).length
          ≤ rl'.requests.length := List.length_filter_le _ _
        _ ≤ 8 := by
          rw [hreq]
          simp only [List.length_append, List.length_singleton]
          omega

/-- C5 witness: from a state with two recorded timestamps, an admission at
time 20 completes and both bounds hold. -/
theorem c5_rate_limiter_window_bound_witness :
    ({ requests := [5, 10, 20], maxRequests := 8, timeWindow := 1000 }
      : RateLimiter).requests.length ≤ 8 ∧
    (({ requests := [5, 10, 20], maxRequests := 8, timeWindow := 1000 }
      : RateLimiter).requests.filter
        (fun timestamp => decide (20 - timestamp < 1000))).length ≤ 8 :=
  c5_rate_limiter_window_bound
    { requests := [5, 10], maxRequests := 8, timeWindow := 1000 } 20
    { requests := [5, 10, 20], maxRequests := 8, timeWindow := 1000 }
    rfl rfl (by decide)

/-- C6 counterexample: with every getParsedTransaction attempt failing
rate-limited, processTransaction's event trace re-issues the upstream call
three times with no admission acquisition between the attempts — the only
acquisition is the single one before withRetry starts. -/
theorem c6_counterexample_retries_not_gated :
    retriesGated
      (processTransactionTrace (fun _ => Except.error "429")) = false ∧
    processTransactionTrace (fun _ => Except.error "429") =
      [Event.acquire, Event.upstreamCall 0, Event.upstreamCall 1,
       Event.upstreamCall 2, Event.upstreamCall 3] := by
  constructor
  · decide
  · decide

/-- Helper: a withRetry trace consists solely of upstream calls — the loop
itself never touches the rate limiter. -/
theorem withRetryGo_trace_no_acquire (op : Nat → Except String α) :
    ∀ (r a : Nat), ∀ e ∈ (RetryHelper.withRetryGo op a r).1,
      e.isAcquire = false := by
  intro r
  induction r with
  | zero =>
    intro a e he
    simp only [RetryHelper.withRetryGo, List.mem_singleton] at he
    rw [he]
    rfl
  | succ r ih =>
    intro a e he
    cases hop : op a with
    | ok v =>
      simp only [RetryHelper.withRetryGo, hop, List.mem_singleton] at he
      rw [he]
      rfl
    | error er =>
      by_cases hrl : isRateLimitMsg er = true
      · simp only [RetryHelper.withRetryGo, hop, hrl, if_true,
          List.mem_cons] at he
        rcases he with he | he
        · rw [he]
          rfl
        · exact ih (a + 1) e he
      · simp only [Bool.not_eq_true] at hrl
        simp only [RetryHelper.withRetryGo, hop, hrl, Bool.false_eq_true,
          if_false, List.mem_singleton] at he
        rw [he]
        rfl

/-- C6 amended: an admission acquisition precedes each withRetry invocation
as a whole — processTransaction's trace is the single acquisition followed
by the retry loop's upstream calls, and the retry loop's own trace contains
no acquisition, so re-issued attempts are not individually gated. -/
theorem c6_amended_acquire_precedes_withRetry_only
    (fetchOp : Nat → Except String (Option ParsedTx))
    (sigOp : Nat → Except String (List String)) :
    processTransactionTrace fetchOp =
      Event.acquire :: RetryHelper.withRetryTrace fetchOp 3 ∧
    (RetryHelper.withRetryTrace fetchOp 3).all
      (fun e => ! e.isAcquire) = true ∧
    (RetryHelper.withRetryTrace sigOp 3).all
      (fun e => ! e.isAcquire) = true := by
  refine ⟨rfl, ?_, ?_⟩
  · exact List.all_eq_true.mpr (fun e he => by
      simp [withRetryGo_trace_no_acquire fetchOp 3 0 e he])
  · exact List.all_eq_true.mpr (fun e he => by
      simp [withRetryGo_trace_no_acquire sigOp 3 0 e he])

/-- C7 counterexample: an upstream refresh that returns no holders leaves
the cache empty, so a second call 1 millisecond later — well inside the
30-second freshness window — issues a second upstream fetch. -/
theorem c7_counterexample_two_fetches_in_window :
    (getTopTokenHolders
      { topHoldersCache := [], lastTopHolderFetch := 0 } 1000 10 []).didFetch
      = true ∧
    (getTopTokenHolders
      (getTopTokenHolders
        { topHoldersCache := [], lastTopHolderFetch := 0 } 1000 10 []).state
      1001 10 []).didFetch = true ∧
    (1001 : Nat) - 1000 < 30000 := by
  refine ⟨?_, ?_, ?_⟩
  · decide
  · decide
  · decide

/-- C7 amended: a call that finds the cache non-empty and younger than
30000 ms is served from the cache with no upstream fetch; consequently a
refresh that stored a non-empty holder list suppresses every further fetch
for the following 30000 ms — but a refresh that stored an empty list does
not. -/
theorem c7_amended_fresh_nonempty_cache_suppresses_fetch
    (st : HolderCacheState) (now limit : Nat) (upstream : List FetchEntry)
    (st0 : HolderCacheState) (t0 lim0 : Nat) (ups0 : List FetchEntry) :
    (st.topHoldersCache.length ≠ 0 → now - st.lastTopHolderFetch < 30000 →
      (getTopTokenHolders st now limit upstream).didFetch = false ∧
      (getTopTokenHolders st now limit upstream).result =
        st.topHoldersCache.take limit) ∧
    ((getTopTokenHolders st0 t0 lim0 ups0).didFetch = true → ups0 ≠ [] →
      now - t0 < 30000 →
      (getTopTokenHolders (getTopTokenHolders st0 t0 lim0 ups0).state
        now limit upstream).didFetch = false) := by
  constructor
  · intro h1 h2
    unfold getTopTokenHolders
    rw [if_pos ⟨h1, h2⟩]
    exact ⟨rfl, rfl⟩
  · intro hfetch hups hfresh
    by_cases hguard :
        st0.topHoldersCache.length ≠ 0 ∧ t0 - st0.lastTopHolderFetch < 30000
    · exfalso
      unfold getTopTokenHolders at hfetch
      rw [if_pos hguard] at hfetch
      exact Bool.false_ne_true hfetch
    · have hstate : (getTopTokenHolders st0 t0 lim0 ups0).state =
          { topHoldersCache := ups0.map (toWallet t0)
            lastTopHolderFetch := t0 } := by
        unfold getTopTokenHolders
        rw [if_neg hguard]
      rw [hstate]
      unfold getTopTokenHolders
      rw [if_pos ?_]
      · constructor
        · simp only [List.length_map]
          intro hlen
          exact hups (List.length_eq_zero.mp hlen)
        · exact hfresh

/-- C7 witness: a wallet already cached at time 0 is served without a fetch
at time 5, and a refresh at time 1000 returning one holder suppresses the
fetch of a call at time 1500. -/
theorem c7_amended_fresh_nonempty_cache_suppresses_fetch_witness :
    ((getTopTokenHolders
        { topHoldersCache := [toWallet 0 { address := "A1", holding := 5 }]
          lastTopHolderFetch := 0 } 5 10 []).didFetch = false ∧
      (getTopTokenHolders
        { topHoldersCache := [toWallet 0 { address := "A1", holding := 5 }]
          lastTopHolderFetch := 0 } 5 10 []).result =
        [toWallet 0 { address := "A1", holding := 5 }].take 10) ∧
    (getTopTokenHolders
      (getTopTokenHolders { topHoldersCache := [], lastTopHolderFetch := 0 }
        1000 10 [{ address := "A1", holding := 5 }]).state
      1500 10 []).didFetch = false := by
  constructor
  · exact (c7_amended_fresh_nonempty_cache_suppresses_fetch
      { topHoldersCache := [toWallet 0 { address := "A1", holding := 5 }]
        lastTopHolderFetch := 0 } 5 10 []
      { topHoldersCache := [], lastTopHolderFetch := 0 } 0 0 []).1
      (by decide) (by decide)
  · exact (c7_amended_fresh_nonempty_cache_suppresses_fetch
      { topHoldersCache := [], lastTopHolderFetch := 0 } 1500 10 []
      { topHoldersCache := [], lastTopHolderFetch := 0 } 1000 10
      [{ address := "A1", holding := 5 }]).2
      (by decide) (by decide) (by decide)

/-- C8 counterexample: a cold-cache call with limit 1 whose upstream
response holds two entries returns both entries — the refresh path slices
to 60, not to the requested limit. -/
theorem c8_counterexample_refresh_ignores_limit :
    1 < (getTopTokenHolders { topHoldersCache := [], lastTopHolderFetch := 0 }
      100 1 [{ address := "A1", holding := 5 },
             { address := "A2", holding := 3 }]).result.length := by
  decide

/-- C8 amended: on the cache path getTopTokenHolders returns at most limit
entries (the cache's first limit entries); on the refresh path it replaces
the cache wholesale, stamps the refresh time, persists every fetched
wallet, and returns the first 60 fetched wallets regardless of the limit
argument. -/
theorem c8_amended_slice_per_path (st : HolderCacheState)
    (now limit : Nat) (upstream : List FetchEntry) :
    (st.topHoldersCache.length ≠ 0 → now - st.lastTopHolderFetch < 30000 →
      (getTopTokenHolders st now limit upstream).result =
        st.topHoldersCache.take limit ∧
      (getTopTokenHolders st now limit upstream).result.length ≤ limit) ∧
    (¬ (st.topHoldersCache.length ≠ 0 ∧
        now - st.lastTopHolderFetch < 30000) →
      (getTopTokenHolders st now limit upstream).result =
        (upstream.map (toWallet now)).take 60 ∧
      (getTopTokenHolders st now limit upstream).state =
        { topHoldersCache := upstream.map (toWallet now)
          lastTopHolderFetch := now } ∧
      (getTopTokenHolders st now limit upstream).persisted =
        upstream.map (toWallet now)) := by
  constructor
  · intro h1 h2
    unfold getTopTokenHolders
    rw [if_pos ⟨h1, h2⟩]
    refine ⟨rfl, ?_⟩
    calc (st.topHoldersCache.take limit).length
        = min limit st.topHoldersCache.length := List.length_take _ _
      _ ≤ limit := Nat.min_le_left _ _
  · intro hguard
    unfold getTopTokenHolders
    rw [if_neg hguard]
    exact ⟨rfl, rfl, rfl⟩

/-- C8 witness: with one cached wallet and limit 0 the cache path returns
nothing; with a cold cache the refresh path returns the two fetched
wallets, stamps the time, and persists both. -/
theorem c8_amended_slice_per_path_witness :
    ((getTopTokenHolders
        { topHoldersCache := [toWallet 0 { address := "A1", holding := 5 }]
          lastTopHolderFetch := 0 } 5 0 []).result =
      [toWallet 0 { address := "A1", holding := 5 }].take 0 ∧
      (getTopTokenHolders
        { topHoldersCache := [toWallet 0 { address := "A1", holding := 5 }]
          lastTopHolderFetch := 0 } 5 0 []).result.length ≤ 0) ∧
    ((getTopTokenHolders { topHoldersCache := [], lastTopHolderFetch := 0 }
        100 1 [{ address := "A1", holding := 5 },
               { address := "A2", holding := 3 }]).result =
      ([{ address := "A1", holding := 5 },
        { address := "A2", holding := 3 }].map (toWallet 100)).take 60 ∧
      (getTopTokenHolders { topHoldersCache := [], lastTopHolderFetch := 0 }
        100 1 [{ address := "A1", holding := 5 },
               { address := "A2", holding := 3 }]).state =
        { topHoldersCache := [{ address := "A1", holding := 5 },
            { address := "A2", holding := 3 }].map (toWallet 100)
          lastTopHolderFetch := 100 } ∧
      (getTopTokenHolders { topHoldersCache := [], lastTopHolderFetch := 0 }
        100 1 [{ address := "A1", holding := 5 },
               { address := "A2", holding := 3 }]).persisted =
        [{ address := "A1", holding := 5 },
         { address := "A2", holding := 3 }].map (toWallet 100)) := by
  constructor
  · exact (c8_amended_slice_per_path
      { topHoldersCache := [toWallet 0 { address := "A1", holding := 5 }]
        lastTopHolderFetch := 0 } 5 0 []).1 (by decide) (by decide)
  · exact (c8_amended_slice_per_path
      { topHoldersCache := [], lastTopHolderFetch := 0 } 100 1
      [{ address := "A1", holding := 5 },
       { address := "A2", holding := 3 }]).2 (by decide)

/-- C9 counterexample: subscribing address "A" twice opens two
onAccountChange handles and closes neither — after the second call two
handles for "A" are live while the tracked map holds only the newer id, so
the prior handle has leaked. -/
theorem c9_counterexample_resubscribe_leaks_handle :
    ((subscribeToWalletTransactions
        (subscribeToWalletTransactions
          { subscriptions := [], liveHandles := [], nextId := 0 } ["A"])
        ["A"]).liveHandles.filter (fun h => h.1 == "A")).length = 2 ∧
    (subscribeToWalletTransactions
        (subscribeToWalletTransactions
          { subscriptions := [], liveHandles := [], nextId := 0 } ["A"])
        ["A"]).subscriptions = [("A", 1)] := by
  constructor
  · decide
  · decide

/-- Helper: looking up the key just written with Map.set semantics returns
the written value. -/
theorem mapGet_mapSet_self (m : List (String × Nat)) (k : String)
    (v : Nat) : mapGet (mapSet m k v) k = some v := by
  induction m with
  | nil => simp [mapSet, mapGet]
  | cons p rest ih =>
    obtain ⟨k', v'⟩ := p
    by_cases hk : (k' == k) = true
    · simp [mapSet, hk, mapGet]
    · simp only [Bool.not_eq_true] at hk
      simp [mapSet, hk, mapGet, ih]

/-- Helper: Map.set leaves the key sequence unchanged when the key is
already present and appends it otherwise. -/
theorem mapSet_keys (m : List (String × Nat)) (k : String) (v : Nat) :
    (mapSet m k v).map Prod.fst =
      if k ∈ m.map Prod.fst then m.map Prod.fst
      else m.map Prod.fst ++ [k] := by
  induction m with
  | nil => simp [mapSet]
  | cons p rest ih =>
    obtain ⟨k', v'⟩ := p
    by_cases hk : (k' == k) = true
    · have hkk : k' = k := by simpa using hk
      subst hkk
      simp [mapSet]
    · have hne : ¬ k' = k := by simpa using hk
      simp only [Bool.not_eq_true] at hk
      by_cases hmem : k ∈ rest.map Prod.fst
      · simp [mapSet, hk, ih, hmem, List.mem_cons, Ne.symm hne]
      · simp [mapSet, hk, ih, hmem, List.mem_cons, Ne.symm hne]

/-- C9 amended: re-subscribing an address opens a fresh handle and tracks
it in place of the old entry, but never closes the prior handle — the live
handle list only grows, the tracked map maps the address to the newest id,
and trackedness stays one-entry-per-address (key Nodup is preserved). -/
theorem c9_amended_resubscribe_overwrites_without_close (st : SubState)
    (address : String) :
    (subscribeOne st address).liveHandles =
      st.liveHandles ++ [(address, st.nextId)] ∧
    mapGet (subscribeOne st address).subscriptions address =
      some st.nextId ∧
    ((st.subscriptions.map Prod.fst).Nodup →
      ((subscribeOne st address).subscriptions.map Prod.fst).Nodup) := by
  refine ⟨rfl, mapGet_mapSet_self _ _ _, ?_⟩
  intro hnodup
  show ((mapSet st.subscriptions address st.nextId).map Prod.fst).Nodup
  rw [mapSet_keys]
  by_cases hmem : address ∈ st.subscriptions.map Prod.fst
  · rw [if_pos hmem]
    exact hnodup
  · rw [if_neg hmem]
    rw [List.nodup_append]
    exact ⟨hnodup, List.nodup_singleton _, by simp [hmem]⟩

/-- C9 witness: applied to a state already tracking "A" with id 0, the
amended theorem shows the old handle is kept live, the map now tracks id 5,
and key uniqueness is preserved. -/
theorem c9_amended_resubscribe_overwrites_without_close_witness :
    (subscribeOne
        { subscriptions := [("A", 0)], liveHandles := [("A", 0)], nextId := 5 }
        "A").liveHandles = [("A", 0)] ++ [("A", 5)] ∧
    mapGet (subscribeOne
        { subscriptions := [("A", 0)], liveHandles := [("A", 0)], nextId := 5 }
        "A").subscriptions "A" = some 5 ∧
    ((subscribeOne
        { subscriptions := [("A", 0)], liveHandles := [("A", 0)], nextId := 5 }
        "A").subscriptions.map Prod.fst).Nodup := by
  have h := c9_amended_resubscribe_overwrites_without_close
    { subscriptions := [("A", 0)], liveHandles := [("A", 0)], nextId := 5 }
    "A"
  exact ⟨h.1, h.2.1, h.2.2 (by decide)⟩

/-- Helper: when every per-signature fetch succeeds, the history loop
returns exactly the non-null analyses of the fetched transactions, in
signature order. -/
theorem historyLoop_all_ok (tokenMint walletAddress : String)
    (txOps : String → Nat → Except String (Option ParsedTx))
    (fetched : String → Option ParsedTx) :
    ∀ sigs : List String,
      (∀ sig ∈ sigs, RetryHelper.withRetry (txOps sig) 3 =
        Except.ok (fetched sig)) →
      historyLoop tokenMint walletAddress txOps sigs =
        Except.ok (sigs.filterMap (fun sig => (fetched sig).bind
          (fun tx => analyzeTransaction tokenMint tx walletAddress))) := by
  intro sigs
  induction sigs with
  | nil => intro _; rfl
  | cons sig rest ih =>
    intro h
    have hsig := h sig (List.mem_cons_self _ _)
    have hrest := ih (fun s hs => h s (List.mem_cons_of_mem _ hs))
    unfold historyLoop
    rw [hsig, hrest]
    cases hf : fetched sig with
    | none => simp [List.filterMap_cons, hf]
    | some tx =>
      cases ha : analyzeTransaction tokenMint tx walletAddress with
      | none => simp [List.filterMap_cons, hf, ha, Option.toList]
      | some a => simp [List.filterMap_cons, hf, ha, Option.toList]

/-- C10: getWalletTransactionHistory never propagates an error — whenever
its try body throws (signature fetch or any per-signature fetch, including
after retry exhaustion) it returns the empty list, and on success it
returns the body's list, which is exactly the non-null analyses of the
fetched transactions. -/
theorem c10_history_never_raises (tokenMint walletAddress : String)
    (sigOp : Nat → Except String (List String))
    (txOps : String → Nat → Except String (Option ParsedTx)) :
    (∀ e, historyBody tokenMint walletAddress sigOp txOps =
        Except.error e →
      getWalletTransactionHistory tokenMint walletAddress sigOp txOps
        = []) ∧
    (∀ l, historyBody tokenMint walletAddress sigOp txOps = Except.ok l →
      getWalletTransactionHistory tokenMint walletAddress sigOp txOps
        = l) ∧
    (∀ (sigs : List String) (fetched : String → Option ParsedTx),
      RetryHelper.withRetry sigOp 3 = Except.ok sigs →
      (∀ sig ∈ sigs, RetryHelper.withRetry (txOps sig) 3 =
        Except.ok (fetched sig)) →
      getWalletTransactionHistory tokenMint walletAddress sigOp txOps =
        sigs.filterMap (fun sig => (fetched sig).bind
          (fun tx => analyzeTransaction tokenMint tx walletAddress))) := by
  refine ⟨?_, ?_, ?_⟩
  · intro e he
    unfold getWalletTransactionHistory
    rw [he]
  · intro l hl
    unfold getWalletTransactionHistory
    rw [hl]
  · intro sigs fetched hsigs hfetch
    have hloop :=
      historyLoop_all_ok tokenMint walletAddress txOps fetched sigs hfetch
    unfold getWalletTransactionHistory historyBody
    rw [hsigs]
    simp only [hloop]

/-- C10 witness: a signature fetch that fails with a non-retryable error
yields the empty list rather than an exception, and a successful fetch
whose transactions all resolve to null yields the (empty) list of
analyses. -/
theorem c10_history_never_raises_witness :
    getWalletTransactionHistory "M" "W"
      (fun _ => Except.error "boom") (fun _ _ => Except.ok none) = [] ∧
    getWalletTransactionHistory "M" "W"
      (fun _ => Except.ok ["s1"]) (fun _ _ => Except.ok none) = [] := by
  constructor
  · exact (c10_history_never_raises "M" "W"
      (fun _ => Except.error "boom") (fun _ _ => Except.ok none)).1
      "boom" rfl
  · have h := (c10_history_never_raises "M" "W"
      (fun _ => Except.ok ["s1"]) (fun _ _ => Except.ok none)).2.2
      ["s1"] (fun _ => none) rfl (fun _ _ => rfl)
    simpa using h

end TokenWise
